import Mathlib

/-!
Verification of the T2 power-limit controller's MSR bit-field codec.

The repository has two implementations of the codec:

* `src/agents/apply_pl.py` — a command-line script applying the "Chill"
  preset (`decode_units`, `encode_power_field`, `apply_chill_profile`);
* `src/cpu_pl_gui.py` — a GUI front-end (`decode_power_time_units`,
  `decode_pls`, `encode_pls`, `PLGui.apply_profile`).

Machine words are embedded as `ℕ` (Python integers are unbounded
nonnegative here); wattages and unit scales are `ℚ` — every float the
programs manipulate (2⁻ᵖ scale factors, preset wattages, their quotients)
is a dyadic rational represented exactly by IEEE doubles, so `ℚ` is a
faithful model of the float arithmetic involved.  MSR access through
`rdmsr`/`wrmsr` subprocess calls is modelled by a read oracle
`ℕ → Option ℕ` (`none` = the privileged read raised) and an explicit
trace of gateway operations (`MsrOp`).
-/

namespace PLC

/-- Python `int(x)` applied to a number: truncation toward zero. -/
def pytrunc (q : ℚ) : ℤ := if 0 ≤ q then ⌊q⌋ else ⌈q⌉

/-- Python 3 `round(x)` with one argument: round to the nearest integer,
ties going to the even neighbour (banker's rounding). -/
def pyround (q : ℚ) : ℤ :=
  if q - ⌊q⌋ < 1/2 then ⌊q⌋
  else if (1 : ℚ)/2 < q - ⌊q⌋ then ⌊q⌋ + 1
  else if ⌊q⌋ % 2 = 0 then ⌊q⌋ else ⌊q⌋ + 1

/-- A gateway (MSR access) operation, for recording traces of
`rdmsr`/`wrmsr` subprocess invocations. -/
inductive MsrOp where
  | read  (msr : ℕ)
  | write (msr : ℕ) (value : ℕ)
deriving DecidableEq

/-- The write operations contained in a gateway trace. -/
def writesOf (t : List MsrOp) : List MsrOp :=
  t.filter fun op => match op with
    | .write _ _ => true
    | .read _ => false

/-- How many times a trace reads a given MSR index. -/
def readCount (t : List MsrOp) (msr : ℕ) : ℕ :=
  (t.filter fun op => match op with
    | .read m => m == msr
    | .write _ _ => false).length

/-! ## src/agents/apply_pl.py -/

def MSR_RAPL_POWER_UNIT : ℕ := 0x606
def MSR_PKG_POWER_LIMIT : ℕ := 0x610

/-- Function `decode_units` of `src/agents/apply_pl.py` (pure part, the `units`
argument being the value read from MSR 0x606):
`pu = units & 0x0F`, `tu = (units >> 16) & 0x0F`,
`power_unit = 1.0 / (1 << pu)`, `time_unit = 1.0 / (1 << tu)`. -/
def decode_units (units : ℕ) : ℚ × ℚ :=
  let pu := units &&& 0x0F
  let tu := (units >>> 16) &&& 0x0F
  (1 / ((1 <<< pu : ℕ) : ℚ), 1 / ((1 <<< tu : ℕ) : ℚ))

/-- Function `encode_power_field` of `src/agents/apply_pl.py`:
`raw_power = int(watts / power_unit)`; then `raw &= ~0x7FFF` clears
bits 0–14 of the nonnegative dword (on `ℕ` written by shifting the low
15 bits out and back), and `raw |= raw_power & 0x7FFF` ORs in the new
limit value (`& 0x7FFF` on a Python int is its value modulo 2^15, also
for negative ints, hence `Int.emod`). -/
def encode_power_field (raw : ℕ) (watts : ℚ) (power_unit : ℚ) : ℕ :=
  let raw_power : ℤ := pytrunc (watts / power_unit)
  ((raw >>> 15) <<< 15) ||| (raw_power % 0x8000).toNat

/-- Function `apply_chill_profile` of `src/agents/apply_pl.py`, with the MSR reads
made explicit through the oracle `readf` and the gateway operations
recorded in order.  Returns the trace and, on success, the 64-bit value
written to MSR 0x610 (`new_pkg = (hi << 32) | lo`). -/
def apply_chill_profile (readf : ℕ → Option ℕ) : List MsrOp × Option ℕ :=
  match readf MSR_RAPL_POWER_UNIT with
  | none => ([.read MSR_RAPL_POWER_UNIT], none)
  | some units =>
    let power_unit := (decode_units units).1
    match readf MSR_PKG_POWER_LIMIT with
    | none => ([.read MSR_RAPL_POWER_UNIT, .read MSR_PKG_POWER_LIMIT], none)
    | some pkg =>
      let lo := pkg &&& 0xFFFFFFFF
      let hi := (pkg >>> 32) &&& 0xFFFFFFFF
      let lo2 := encode_power_field lo 20 power_unit
      let hi2 := encode_power_field hi 28 power_unit
      let new_pkg := (hi2 <<< 32) ||| lo2
      ([.read MSR_RAPL_POWER_UNIT, .read MSR_PKG_POWER_LIMIT,
        .write MSR_PKG_POWER_LIMIT new_pkg], some new_pkg)

/-! ## src/cpu_pl_gui.py -/

/-- Function `decode_power_time_units` of `src/cpu_pl_gui.py` (pure part, `val`
being the value read from MSR 0x606): `power_bits = val & 0xF`,
`time_bits = (val >> 4) & 0xF`, `power_unit = 1.0 / (2 ** power_bits)`,
`time_unit = 1.0 / (2 ** time_bits)`.  Note the time exponent is taken
from bits 4–7 here, unlike `decode_units` above. -/
def decode_power_time_units (val : ℕ) : ℚ × ℚ :=
  let power_bits := val &&& 0xF
  let time_bits := (val >>> 4) &&& 0xF
  (1 / (2 ^ power_bits : ℚ), 1 / (2 ^ time_bits : ℚ))

/-- The field extraction of `decode_pls` of `src/cpu_pl_gui.py` (the part
after its two MSR reads): `lower = val & 0xFFFFFFFF`,
`upper = (val >> 32) & 0xFFFFFFFF`, `pl1_raw = lower & 0x7FFF`,
`pl2_raw = upper & 0x7FFF`, `tau_raw = (lower >> 17) & 0x7F`,
`tau_seconds = time_unit * (2 ** tau_raw)`, `pl1_w = pl1_raw * power_unit`,
`pl2_w = pl2_raw * power_unit`. -/
def decode_pls_fields (val : ℕ) (power_unit time_unit : ℚ) : ℚ × ℚ × ℚ :=
  let lower := val &&& 0xFFFFFFFF
  let upper := (val >>> 32) &&& 0xFFFFFFFF
  let pl1_raw := lower &&& 0x7FFF
  let pl2_raw := upper &&& 0x7FFF
  let tau_raw := (lower >>> 17) &&& 0x7F
  (pl1_raw * power_unit, pl2_raw * power_unit, time_unit * (2 ^ tau_raw : ℕ))

/-- Function `decode_pls` of `src/cpu_pl_gui.py` with reads explicit: it calls
`decode_power_time_units()` (one read of 0x606), then reads 0x610, and
returns `(pl1_w, pl2_w, tau_seconds, val)`. -/
def decode_pls (readf : ℕ → Option ℕ) :
    List MsrOp × Option (ℚ × ℚ × ℚ × ℕ) :=
  match readf 0x606 with
  | none => ([.read 0x606], none)
  | some uval =>
    let scale := decode_power_time_units uval
    match readf 0x610 with
    | none => ([.read 0x606, .read 0x610], none)
    | some val =>
      let f := decode_pls_fields val scale.1 scale.2
      ([.read 0x606, .read 0x610], some (f.1, f.2.1, f.2.2, val))

/-- Function `encode_pls` of `src/cpu_pl_gui.py` (pure part, with the
`power_unit` it obtains from its own `decode_power_time_units()` call
passed in): `pl1_raw = int(round(pl1_w / power_unit))` (same for pl2),
`lower_new = (lower_old & ~0x7FFF) | (pl1_raw & 0x7FFF)` (same for
upper), result `(upper_new << 32) | lower_new`. -/
def encode_pls (pl1_w pl2_w : ℚ) (preserve_tau_from_val : ℕ)
    (power_unit : ℚ) : ℕ :=
  let old := preserve_tau_from_val
  let lower_old := old &&& 0xFFFFFFFF
  let upper_old := (old >>> 32) &&& 0xFFFFFFFF
  let pl1_raw : ℤ := pyround (pl1_w / power_unit)
  let pl2_raw : ℤ := pyround (pl2_w / power_unit)
  let lower_new := ((lower_old >>> 15) <<< 15) ||| (pl1_raw % 0x8000).toNat
  let upper_new := ((upper_old >>> 15) <<< 15) ||| (pl2_raw % 0x8000).toNat
  (upper_new <<< 32) ||| lower_new

/-- Function `encode_pls` with its internal `decode_power_time_units()` read of
MSR 0x606 made explicit in the trace. -/
def encode_pls_traced (readf : ℕ → Option ℕ) (pl1_w pl2_w : ℚ)
    (old : ℕ) : List MsrOp × Option ℕ :=
  match readf 0x606 with
  | none => ([.read 0x606], none)
  | some uval =>
    ([.read 0x606],
      some (encode_pls pl1_w pl2_w old (decode_power_time_units uval).1))

/-- Table `PROFILES` of `src/cpu_pl_gui.py`: the preset catalog. -/
def PROFILES : List (String × ℚ × ℚ) :=
  [("Eco", 12, 20), ("Chill", 20, 28), ("Sport", 23, 32),
   ("Full", 27.5, 40), ("Stupid", 30, 45)]

/-- Method `PLGui.update_current_label` of `src/cpu_pl_gui.py`: it calls
`decode_pls()` (one read of 0x606, one read of 0x610) and formats the
label text from the result; the label text itself is presentation-only,
so the gateway effect is exactly `decode_pls`'s trace (no writes; a
failure is caught inside the method and shown in a message box). -/
def update_current_label (readf : ℕ → Option ℕ) : List MsrOp :=
  (decode_pls readf).1

/-- Method `PLGui.apply_profile` of `src/cpu_pl_gui.py` for a selected profile
`(pl1, pl2)`: `decode_pls()` (reads 0x606 then 0x610), then
`encode_pls(pl1, pl2, old_val)` (reads 0x606 again), then
`run_wrmsr("0x610", new_val)`, then `self.update_current_label()`
(reads 0x606 and 0x610 once more, after the write).  Any failed read
before the write aborts (the GUI catches the exception and shows it),
so the write and the refresh are skipped. -/
def apply_profile (readf : ℕ → Option ℕ) (pl1 pl2 : ℚ) :
    List MsrOp × Option ℕ :=
  match decode_pls readf with
  | (t1, none) => (t1, none)
  | (t1, some r) =>
    match encode_pls_traced readf pl1 pl2 r.2.2.2 with
    | (t2, none) => (t1 ++ t2, none)
    | (t2, some new_val) =>
      (t1 ++ t2 ++ [.write 0x610 new_val] ++ update_current_label readf,
        some new_val)

/-! ## Arithmetic helper lemmas -/

theorem and_mask_F (x : ℕ) : x &&& 0xF = x % 2 ^ 4 := by
  have h : (0xF : ℕ) = 2 ^ 4 - 1 := by norm_num
  rw [h, Nat.and_pow_two_sub_one_eq_mod]

theorem and_mask_7F (x : ℕ) : x &&& 0x7F = x % 2 ^ 7 := by
  have h : (0x7F : ℕ) = 2 ^ 7 - 1 := by norm_num
  rw [h, Nat.and_pow_two_sub_one_eq_mod]

theorem and_mask_7FFF (x : ℕ) : x &&& 0x7FFF = x % 2 ^ 15 := by
  have h : (0x7FFF : ℕ) = 2 ^ 15 - 1 := by norm_num
  rw [h, Nat.and_pow_two_sub_one_eq_mod]

theorem and_mask_32 (x : ℕ) : x &&& 0xFFFFFFFF = x % 2 ^ 32 := by
  have h : (0xFFFFFFFF : ℕ) = 2 ^ 32 - 1 := by norm_num
  rw [h, Nat.and_pow_two_sub_one_eq_mod]

/-- Clearing bits 0–14 and ORing in `v < 2^15` is ordinary arithmetic:
`2^15 * (x / 2^15) + v`. -/
theorem patch_eq (x v : ℕ) (hv : v < 2 ^ 15) :
    ((x >>> 15) <<< 15) ||| v = 2 ^ 15 * (x / 2 ^ 15) + v := by
  rw [Nat.shiftRight_eq_div_pow, Nat.shiftLeft_eq, Nat.mul_comm,
    Nat.mul_add_lt_is_or hv]

theorem combine_eq (hi lo : ℕ) (hlo : lo < 2 ^ 32) :
    (hi <<< 32) ||| lo = 2 ^ 32 * hi + lo := by
  rw [Nat.shiftLeft_eq, Nat.mul_comm, Nat.mul_add_lt_is_or hlo]

theorem core_mod (a v : ℕ) (hv : v < 2 ^ 15) :
    (2 ^ 15 * (a / 2 ^ 15) + v) % 2 ^ 15 = v := by
  rw [Nat.mul_add_mod]
  exact Nat.mod_eq_of_lt hv

theorem core_div (a v : ℕ) (hv : v < 2 ^ 15) :
    (2 ^ 15 * (a / 2 ^ 15) + v) / 2 ^ 15 = a / 2 ^ 15 := by
  rw [Nat.mul_add_div (by norm_num), Nat.div_eq_of_lt hv, Nat.add_zero]

theorem core_lt (a v : ℕ) (ha : a < 2 ^ 32) (hv : v < 2 ^ 15) :
    2 ^ 15 * (a / 2 ^ 15) + v < 2 ^ 32 := by
  have h1 : a / 2 ^ 15 < 2 ^ 17 := by
    apply Nat.div_lt_of_lt_mul
    calc a < 2 ^ 32 := ha
    _ = 2 ^ 15 * 2 ^ 17 := by norm_num
  have h2 : (2 : ℕ) ^ 15 * (a / 2 ^ 15) ≤ 2 ^ 15 * (2 ^ 17 - 1) :=
    Nat.mul_le_mul_left _ (by omega)
  calc 2 ^ 15 * (a / 2 ^ 15) + v ≤ 2 ^ 15 * (2 ^ 17 - 1) + v := by omega
  _ < 2 ^ 32 := by norm_num at hv ⊢; omega

theorem combine_mod (hi lo : ℕ) (hlo : lo < 2 ^ 32) :
    (2 ^ 32 * hi + lo) % 2 ^ 32 = lo := by
  rw [Nat.mul_add_mod]
  exact Nat.mod_eq_of_lt hlo

theorem combine_div (hi lo : ℕ) (hlo : lo < 2 ^ 32) :
    (2 ^ 32 * hi + lo) / 2 ^ 32 = hi := by
  rw [Nat.mul_add_div (by norm_num), Nat.div_eq_of_lt hlo, Nat.add_zero]

/-- Two numbers agreeing above bit 15 agree on every bit from 15 up. -/
theorem frame_testBit {x y : ℕ} (h : x / 2 ^ 15 = y / 2 ^ 15) {j : ℕ}
    (hj : 15 ≤ j) : x.testBit j = y.testBit j := by
  have hj2 : 15 + (j - 15) = j := by omega
  have key : ∀ z : ℕ, z / 2 ^ j = z / 2 ^ 15 / 2 ^ (j - 15) := by
    intro z
    rw [Nat.div_div_eq_div_mul, ← pow_add, hj2]
  rw [Nat.testBit_to_div_mod, Nat.testBit_to_div_mod, key, key, h]

theorem testBit_mod32 (x i : ℕ) (hi : i < 32) :
    (x % 2 ^ 32).testBit i = x.testBit i := by
  rw [Nat.testBit_mod_two_pow, decide_eq_true hi, Bool.true_and]

theorem testBit_div32 (x i : ℕ) :
    (x / 2 ^ 32).testBit i = x.testBit (32 + i) := by
  rw [Nat.testBit_to_div_mod, Nat.testBit_to_div_mod,
    Nat.div_div_eq_div_mul, ← pow_add]

/-! ## Rounding helper lemmas -/

theorem pytrunc_of_nonneg {q : ℚ} (h : 0 ≤ q) : pytrunc q = ⌊q⌋ := if_pos h

theorem pytrunc_nonneg {q : ℚ} (h : 0 ≤ q) : 0 ≤ pytrunc q := by
  rw [pytrunc_of_nonneg h]
  exact Int.floor_nonneg.mpr h

theorem pytrunc_abs {q : ℚ} (h : 0 ≤ q) : |q - pytrunc q| ≤ 1 := by
  rw [pytrunc_of_nonneg h, abs_of_nonneg (by
    have := Int.floor_le q
    linarith)]
  have := Int.sub_one_lt_floor q
  linarith

theorem pyround_eq_floor_or (q : ℚ) :
    pyround q = ⌊q⌋ ∨ pyround q = ⌊q⌋ + 1 := by
  unfold pyround
  split
  · exact Or.inl rfl
  split
  · exact Or.inr rfl
  split
  · exact Or.inl rfl
  · exact Or.inr rfl

theorem pyround_nonneg {q : ℚ} (h : 0 ≤ q) : 0 ≤ pyround q := by
  have hf : (0 : ℤ) ≤ ⌊q⌋ := Int.floor_nonneg.mpr h
  rcases pyround_eq_floor_or q with h1 | h1 <;> omega

theorem pyround_abs (q : ℚ) : |q - pyround q| ≤ 1/2 := by
  have hf0 : (⌊q⌋ : ℚ) ≤ q := Int.floor_le q
  have hf1 : q < ⌊q⌋ + 1 := Int.lt_floor_add_one q
  unfold pyround
  split_ifs with h1 h2 h3
  · rw [abs_of_nonneg (by linarith)]
    linarith
  · push_cast
    rw [abs_of_nonpos (by linarith)]
    linarith
  · rw [abs_of_nonneg (by linarith)]
    linarith
  · push_cast
    rw [abs_of_nonpos (by linarith)]
    linarith

theorem emod_small {z : ℤ} (h0 : 0 ≤ z) (h1 : z < 2 ^ 15) :
    z % 0x8000 = z :=
  Int.emod_eq_of_lt h0 (by omega)

/-! ## Characterizations of the codec functions -/

theorem encode_power_field_eq (raw : ℕ) (w u : ℚ)
    (h0 : 0 ≤ pytrunc (w / u)) (h1 : pytrunc (w / u) < 2 ^ 15) :
    encode_power_field raw w u
      = 2 ^ 15 * (raw / 2 ^ 15) + (pytrunc (w / u)).toNat := by
  simp only [encode_power_field]
  rw [emod_small h0 h1]
  exact patch_eq _ _ (by omega)

theorem encode_pls_eq (p1 p2 : ℚ) (old : ℕ) (u : ℚ)
    (h10 : 0 ≤ pyround (p1 / u)) (h11 : pyround (p1 / u) < 2 ^ 15)
    (h20 : 0 ≤ pyround (p2 / u)) (h21 : pyround (p2 / u) < 2 ^ 15) :
    encode_pls p1 p2 old u =
      2 ^ 32 * (2 ^ 15 * (old / 2 ^ 32 % 2 ^ 32 / 2 ^ 15)
          + (pyround (p2 / u)).toNat)
        + (2 ^ 15 * (old % 2 ^ 32 / 2 ^ 15) + (pyround (p1 / u)).toNat) := by
  simp only [encode_pls]
  rw [and_mask_32, Nat.shiftRight_eq_div_pow old 32, and_mask_32,
    emod_small h10 h11, emod_small h20 h21,
    patch_eq _ _ (by omega), patch_eq _ _ (by omega)]
  exact combine_eq _ _ (core_lt _ _ (Nat.mod_lt _ (by norm_num)) (by omega))

theorem decode_pls_fields_arith (val : ℕ) (pu tu : ℚ) :
    decode_pls_fields val pu tu =
      ((val % 2 ^ 32 % 2 ^ 15 : ℕ) * pu,
        (val / 2 ^ 32 % 2 ^ 32 % 2 ^ 15 : ℕ) * pu,
        tu * ((2 ^ (val % 2 ^ 32 / 2 ^ 17 % 2 ^ 7) : ℕ) : ℚ)) := by
  simp only [decode_pls_fields, and_mask_32, and_mask_7FFF, and_mask_7F,
    Nat.shiftRight_eq_div_pow]

theorem decode_units_arith (u : ℕ) :
    decode_units u
      = (1 / (2 ^ (u % 2 ^ 4) : ℚ), 1 / (2 ^ (u / 2 ^ 16 % 2 ^ 4) : ℚ)) := by
  simp only [decode_units, and_mask_F, Nat.shiftRight_eq_div_pow,
    Nat.shiftLeft_eq, one_mul]
  push_cast
  rfl

theorem decode_power_time_units_arith (v : ℕ) :
    decode_power_time_units v
      = (1 / (2 ^ (v % 2 ^ 4) : ℚ), 1 / (2 ^ (v / 2 ^ 4 % 2 ^ 4) : ℚ)) := by
  simp only [decode_power_time_units, and_mask_F, Nat.shiftRight_eq_div_pow]

theorem unit_pos (k : ℕ) : (0 : ℚ) < 1 / (2 ^ k : ℚ) := by positivity

/-- If an integer `z` is within distance 1 of `w / u`, then `z` raw steps
decode to within `u` watts of `w`. -/
theorem decoded_close {w u : ℚ} (z : ℤ) (hu : 0 < u) (h0 : 0 ≤ z)
    (hz : |w / u - z| ≤ 1) : |w - (z.toNat : ℚ) * u| ≤ u := by
  have ht : ((z.toNat : ℚ)) = (z : ℚ) := by exact_mod_cast Int.toNat_of_nonneg h0
  have key : w - (z : ℚ) * u = (w / u - z) * u := by
    field_simp
    ring
  rw [ht, key, abs_mul, abs_of_pos hu]
  calc |w / u - z| * u ≤ 1 * u := mul_le_mul_of_nonneg_right hz hu.le
  _ = u := one_mul u

theorem trunc_close {w u : ℚ} (hw : 0 ≤ w) (hu : 0 < u) :
    |w - ((pytrunc (w / u)).toNat : ℚ) * u| ≤ u :=
  decoded_close _ hu (pytrunc_nonneg (div_nonneg hw hu.le))
    (pytrunc_abs (div_nonneg hw hu.le))

theorem round_close {w u : ℚ} (hw : 0 ≤ w) (hu : 0 < u) :
    |w - ((pyround (w / u)).toNat : ℚ) * u| ≤ u :=
  decoded_close _ hu (pyround_nonneg (div_nonneg hw hu.le))
    (le_trans (pyround_abs _) (by norm_num))

theorem toNat_lt15 {z : ℤ} (h : z < 2 ^ 15) : z.toNat < 2 ^ 15 := by
  have e1 : (2 : ℤ) ^ 15 = 32768 := by norm_num
  have e2 : (2 : ℕ) ^ 15 = 32768 := by norm_num
  rw [e1] at h
  rw [e2]
  omega

theorem emod15_toNat_lt (z : ℤ) : (z % 0x8000).toNat < 2 ^ 15 := by
  have h1 : z % 32768 < 32768 := Int.emod_lt_of_pos z (by norm_num)
  have e2 : (2 : ℕ) ^ 15 = 32768 := by norm_num
  rw [e2]
  omega

theorem emod_toNat {z : ℤ} (h0 : 0 ≤ z) :
    (z % 0x8000).toNat = z.toNat % 2 ^ 15 := by
  have e2 : (2 : ℕ) ^ 15 = 32768 := by norm_num
  rw [e2]
  omega

theorem tau_frame (x v : ℕ) (hv : v < 2 ^ 15) :
    (2 ^ 15 * (x / 2 ^ 15) + v) / 2 ^ 17 % 2 ^ 7 = x / 2 ^ 17 % 2 ^ 7 := by
  have h : ∀ z : ℕ, z / 2 ^ 17 = z / 2 ^ 15 / 2 ^ 2 := by
    intro z
    rw [Nat.div_div_eq_div_mul]
    norm_num
  rw [h, core_div _ _ hv, ← h]

/-- Main frame/accuracy property of one read-modify-write of the 64-bit
power-limit register: when the new 64-bit value `v` patches limit raw
values `z1` (lower slot) and `z2` (upper slot), both in 15-bit range
and within one raw step of the requested wattages, then every bit of
`v` outside the two 15-bit limit fields equals the corresponding bit of
the pre-write value `pkg`, the decoded tau is unchanged, and the
decoded limits are within `u` watts of the requests. -/
theorem patched_register_props (pkg v : ℕ) (z1 z2 : ℤ) (u t w1 w2 : ℚ)
    (hv : v = 2 ^ 32 * (2 ^ 15 * (pkg / 2 ^ 32 / 2 ^ 15) + z2.toNat)
        + (2 ^ 15 * (pkg % 2 ^ 32 / 2 ^ 15) + z1.toNat))
    (hpkg : pkg < 2 ^ 64)
    (h10 : 0 ≤ z1) (h11 : z1 < 2 ^ 15)
    (h20 : 0 ≤ z2) (h21 : z2 < 2 ^ 15)
    (hu : 0 < u)
    (hc1 : |w1 / u - z1| ≤ 1) (hc2 : |w2 / u - z2| ≤ 1) :
    (∀ i, ¬ (i < 15 ∨ (32 ≤ i ∧ i < 47)) → v.testBit i = pkg.testBit i)
    ∧ (decode_pls_fields v u t).2.2 = (decode_pls_fields pkg u t).2.2
    ∧ |w1 - (decode_pls_fields v u t).1| ≤ u
    ∧ |w2 - (decode_pls_fields v u t).2.1| ≤ u := by
  have hz1 : z1.toNat < 2 ^ 15 := toNat_lt15 h11
  have hz2 : z2.toNat < 2 ^ 15 := toNat_lt15 h21
  have hdiv : pkg / 2 ^ 32 < 2 ^ 32 := Nat.div_lt_of_lt_mul (by
    calc pkg < 2 ^ 64 := hpkg
    _ = 2 ^ 32 * 2 ^ 32 := by norm_num)
  have hLlt : 2 ^ 15 * (pkg % 2 ^ 32 / 2 ^ 15) + z1.toNat < 2 ^ 32 :=
    core_lt _ _ (Nat.mod_lt _ (by norm_num)) hz1
  have hUlt : 2 ^ 15 * (pkg / 2 ^ 32 / 2 ^ 15) + z2.toNat < 2 ^ 32 :=
    core_lt _ _ hdiv hz2
  have hmod : v % 2 ^ 32 = 2 ^ 15 * (pkg % 2 ^ 32 / 2 ^ 15) + z1.toNat := by
    rw [hv]
    exact combine_mod _ _ hLlt
  have hdv : v / 2 ^ 32 = 2 ^ 15 * (pkg / 2 ^ 32 / 2 ^ 15) + z2.toNat := by
    rw [hv]
    exact combine_div _ _ hLlt
  refine ⟨?_, ?_, ?_, ?_⟩
  · intro i hi
    by_cases hlt : i < 32
    · have h15 : 15 ≤ i := by omega
      rw [← testBit_mod32 v i hlt, ← testBit_mod32 pkg i hlt, hmod]
      exact frame_testBit (core_div _ _ hz1) h15
    · have hi32 : i = 32 + (i - 32) := by omega
      have e1 : v.testBit i = (v / 2 ^ 32).testBit (i - 32) := by
        rw [testBit_div32, ← hi32]
      have e2 : pkg.testBit i = (pkg / 2 ^ 32).testBit (i - 32) := by
        rw [testBit_div32, ← hi32]
      rw [e1, e2, hdv]
      exact frame_testBit (core_div _ _ hz2) (by omega)
  · rw [decode_pls_fields_arith, decode_pls_fields_arith, hmod,
      tau_frame _ _ hz1]
  · rw [decode_pls_fields_arith, hmod, core_mod _ _ hz1]
    exact decoded_close z1 hu h10 hc1
  · rw [decode_pls_fields_arith, hdv, Nat.mod_eq_of_lt hUlt,
      core_mod _ _ hz2]
    exact decoded_close z2 hu h20 hc2

/-- The limit field (low 15 bits) stored by `encode_power_field`. -/
theorem encode_power_field_low (original_half : ℕ) (w u : ℚ)
    (h0 : 0 ≤ pytrunc (w / u)) :
    (encode_power_field original_half w u) &&& 0x7FFF
      = (pytrunc (w / u)).toNat % 2 ^ 15 := by
  simp only [encode_power_field]
  rw [patch_eq _ _ (emod15_toNat_lt _), and_mask_7FFF,
    core_mod _ _ (emod15_toNat_lt _), emod_toNat h0]

/-- The PL1 limit field (low 15 bits of the lower half) stored by
`encode_pls`. -/
theorem encode_pls_low (p1 p2 : ℚ) (old : ℕ) (u : ℚ)
    (g0 : 0 ≤ pyround (p1 / u)) :
    (encode_pls p1 p2 old u % 2 ^ 32) &&& 0x7FFF
      = (pyround (p1 / u)).toNat % 2 ^ 15 := by
  have hLb : 2 ^ 15 * (old % 2 ^ 32 / 2 ^ 15) + (pyround (p1 / u) % 0x8000).toNat
      < 2 ^ 32 :=
    core_lt _ _ (Nat.mod_lt _ (by norm_num)) (emod15_toNat_lt _)
  simp only [encode_pls]
  rw [patch_eq _ _ (emod15_toNat_lt _), patch_eq _ _ (emod15_toNat_lt _)]
  simp only [and_mask_32]
  rw [combine_eq _ _ hLb, combine_mod _ _ hLb, and_mask_7FFF,
    core_mod _ _ (emod15_toNat_lt _), emod_toNat g0]

/-! ## Claims -/

/-- C9: on `original_half = 0x00088000` (limit_raw = 0, enable bit 15 set,
clamp bit 16 set) with `power_unit = 0.125` and `desired_watts = 20.0`,
both encoders compute `raw = 160 = 0xA0` and produce the half
`0x000880A0`: the enable and clamp bits are preserved and the limit
field equals `0xA0`. -/
theorem encode_scenario2_exact :
    pytrunc ((20 : ℚ) / (1/8)) = 160 ∧ pyround ((20 : ℚ) / (1/8)) = 160 ∧
    encode_power_field 0x00088000 20 (1/8) = 0x000880A0 ∧
    encode_pls 20 28 0x00088000 (1/8) % 2 ^ 32 = 0x000880A0 ∧
    Nat.testBit 0x000880A0 15 = Nat.testBit 0x00088000 15 ∧
    Nat.testBit 0x000880A0 16 = Nat.testBit 0x00088000 16 ∧
    Nat.testBit 0x000880A0 15 = true ∧
    (0x000880A0 : ℕ) &&& 0x7FFF = 0xA0 := by
  have h1 : pytrunc ((20 : ℚ) / (1/8)) = 160 := by norm_num [pytrunc]
  have h2 : pyround ((20 : ℚ) / (1/8)) = 160 := by norm_num [pyround]
  have h3 : pyround ((28 : ℚ) / (1/8)) = 224 := by norm_num [pyround]
  refine ⟨h1, h2, ?_, ?_, by decide, by decide, by decide, by decide⟩
  · simp only [encode_power_field, h1]
    decide
  · simp only [encode_pls, h2, h3]
    decide

/-- C4, counterexample: a unit register whose time exponent (bits 16–19)
is 1 is decoded by the GUI's `decode_power_time_units` to
`time_unit = 1`, not `2^-1`, because it reads bits 4–7. -/
theorem gui_time_unit_bits_counterexample :
    (0x10000 : ℕ) / 2 ^ 16 % 2 ^ 4 = 1 ∧
    (decode_power_time_units 0x10000).2 = 1 ∧
    ((1 : ℚ) / 2 ^ (1 : ℕ)) ≠ 1 := by
  refine ⟨by norm_num, ?_, by norm_num⟩
  rw [decode_power_time_units_arith]
  norm_num

/-- C4, amended: `decode_units` (apply_pl.py) extracts the power exponent
from bits 0–3 and the time exponent from bits 16–19, yielding exactly
`2^-p` and `2^-t`; `decode_power_time_units` (cpu_pl_gui.py) extracts
the power exponent from bits 0–3 but the time exponent from bits 4–7. -/
theorem decode_unit_scale_exponent_fields (u : ℕ) :
    decode_units u
      = (1 / (2 ^ (u % 2 ^ 4) : ℚ), 1 / (2 ^ (u / 2 ^ 16 % 2 ^ 4) : ℚ))
    ∧ decode_power_time_units u
      = (1 / (2 ^ (u % 2 ^ 4) : ℚ), 1 / (2 ^ (u / 2 ^ 4 % 2 ^ 4) : ℚ)) :=
  ⟨decode_units_arith u, decode_power_time_units_arith u⟩

/-- C8: for every 64-bit register value and unit scale, `decode_pls`
returns `pl1 = (bits 0–14 of the lower half) * power_unit`,
`pl2 = (bits 0–14 of the upper half) * power_unit`, and
`tau = time_unit * 2^w` with `w` the bits 17–23 of the lower half. -/
theorem decode_pls_field_formulas (val : ℕ) (pu tu : ℚ) (h : val < 2 ^ 64) :
    decode_pls_fields val pu tu =
      ((val % 2 ^ 32 % 2 ^ 15 : ℕ) * pu,
        (val / 2 ^ 32 % 2 ^ 15 : ℕ) * pu,
        tu * ((2 ^ (val % 2 ^ 32 / 2 ^ 17 % 2 ^ 7) : ℕ) : ℚ)) := by
  have hdiv : val / 2 ^ 32 < 2 ^ 32 := Nat.div_lt_of_lt_mul (by
    calc val < 2 ^ 64 := h
    _ = 2 ^ 32 * 2 ^ 32 := by norm_num)
  rw [decode_pls_fields_arith, Nat.mod_eq_of_lt hdiv]

/-- Witness for C8 at a concrete register value. -/
theorem decode_pls_field_formulas_witness :
    (0x00DD80E8000880A0 : ℕ) < 2 ^ 64 ∧
    decode_pls_fields 0x00DD80E8000880A0 (1/8) 1 =
      ((((0x00DD80E8000880A0 : ℕ) % 2 ^ 32 % 2 ^ 15 : ℕ) : ℚ) * (1/8 : ℚ),
        (((0x00DD80E8000880A0 : ℕ) / 2 ^ 32 % 2 ^ 15 : ℕ) : ℚ) * (1/8 : ℚ),
        (1 : ℚ) * ((2 ^ ((0x00DD80E8000880A0 : ℕ) % 2 ^ 32 / 2 ^ 17 % 2 ^ 7) : ℕ) : ℚ)) :=
  ⟨by norm_num, decode_pls_field_formulas 0x00DD80E8000880A0 (1/8) 1 (by norm_num)⟩

/-- C2: when the converted raw value fits in 15 bits, encoding changes
bits 0–14 only — bits 15–31 of the result equal bits 15–31 of the
original half, for `encode_power_field` and for both 32-bit halves of
`encode_pls`. -/
theorem encode_limit_field_preserves_high_bits
    (original_half : ℕ) (w u p1 p2 : ℚ) (old : ℕ)
    (h0 : 0 ≤ pytrunc (w / u)) (h1 : pytrunc (w / u) ≤ 0x7FFF)
    (g10 : 0 ≤ pyround (p1 / u)) (g11 : pyround (p1 / u) ≤ 0x7FFF)
    (g20 : 0 ≤ pyround (p2 / u)) (g21 : pyround (p2 / u) ≤ 0x7FFF) :
    (∀ i, 15 ≤ i → i ≤ 31 →
      (encode_power_field original_half w u).testBit i
        = original_half.testBit i)
    ∧ (∀ i, 15 ≤ i → i ≤ 31 →
      (encode_pls p1 p2 old u % 2 ^ 32).testBit i
        = (old % 2 ^ 32).testBit i)
    ∧ (∀ i, 15 ≤ i → i ≤ 31 →
      (encode_pls p1 p2 old u / 2 ^ 32).testBit i
        = (old / 2 ^ 32 % 2 ^ 32).testBit i) := by
  have e15 : (2 : ℤ) ^ 15 = 32768 := by norm_num
  have hlt : pytrunc (w / u) < 2 ^ 15 := by rw [e15]; omega
  have glt1 : pyround (p1 / u) < 2 ^ 15 := by rw [e15]; omega
  have glt2 : pyround (p2 / u) < 2 ^ 15 := by rw [e15]; omega
  have hLb : 2 ^ 15 * (old % 2 ^ 32 / 2 ^ 15) + (pyround (p1 / u)).toNat
      < 2 ^ 32 :=
    core_lt _ _ (Nat.mod_lt _ (by norm_num)) (toNat_lt15 glt1)
  refine ⟨?_, ?_, ?_⟩
  · intro i hi _
    rw [encode_power_field_eq _ _ _ h0 hlt]
    exact frame_testBit (core_div _ _ (toNat_lt15 hlt)) hi
  · intro i hi _
    rw [encode_pls_eq _ _ _ _ g10 glt1 g20 glt2, combine_mod _ _ hLb]
    exact frame_testBit (core_div _ _ (toNat_lt15 glt1)) hi
  · intro i hi _
    rw [encode_pls_eq _ _ _ _ g10 glt1 g20 glt2, combine_div _ _ hLb]
    exact frame_testBit (core_div _ _ (toNat_lt15 glt2)) hi

/-- Witness for C2 at scenario-2 inputs, checked on bit 16. -/
theorem encode_limit_field_preserves_high_bits_witness :
    0 ≤ pytrunc ((20 : ℚ) / (1/8)) ∧ pytrunc ((20 : ℚ) / (1/8)) ≤ 0x7FFF ∧
    (encode_power_field 0x00088000 20 (1/8)).testBit 16
      = (0x00088000 : ℕ).testBit 16 := by
  have h1 : pytrunc ((20 : ℚ) / (1/8)) = 160 := by norm_num [pytrunc]
  have h2 : pyround ((20 : ℚ) / (1/8)) = 160 := by norm_num [pyround]
  have h3 : pyround ((28 : ℚ) / (1/8)) = 224 := by norm_num [pyround]
  exact ⟨by rw [h1]; norm_num, by rw [h1]; norm_num,
    (encode_limit_field_preserves_high_bits 0x00088000 20 (1/8) 20 28 0x88000
      (by rw [h1]; norm_num) (by rw [h1]; norm_num) (by rw [h2]; norm_num)
      (by rw [h2]; norm_num) (by rw [h3]; norm_num) (by rw [h3]; norm_num)).1
      16 (by norm_num) (by norm_num)⟩

/-- C10: for a 32-bit original half, nonnegative watts and positive
power unit, the encoded half is again below `2^32`, and in the
recombined 64-bit value the two halves stay in their own 32 bits:
`mod 2^32` and `div 2^32` of `encode_pls`'s result recover exactly the
per-half patched values, and the result is below `2^64`. -/
theorem encode_result_fits_32_bits
    (original_half : ℕ) (w u p1 p2 : ℚ) (old : ℕ)
    (horig : original_half < 2 ^ 32) (hw : 0 ≤ w) (hu : 0 < u)
    (hold : old < 2 ^ 64) :
    encode_power_field original_half w u < 2 ^ 32
    ∧ encode_pls p1 p2 old u % 2 ^ 32
        = 2 ^ 15 * (old % 2 ^ 32 / 2 ^ 15) + (pyround (p1 / u) % 0x8000).toNat
    ∧ encode_pls p1 p2 old u / 2 ^ 32
        = 2 ^ 15 * (old / 2 ^ 32 / 2 ^ 15) + (pyround (p2 / u) % 0x8000).toNat
    ∧ encode_pls p1 p2 old u < 2 ^ 64 := by
  have hdiv : old / 2 ^ 32 < 2 ^ 32 := Nat.div_lt_of_lt_mul (by
    calc old < 2 ^ 64 := hold
    _ = 2 ^ 32 * 2 ^ 32 := by norm_num)
  have hLb : 2 ^ 15 * (old % 2 ^ 32 / 2 ^ 15) + (pyround (p1 / u) % 0x8000).toNat
      < 2 ^ 32 :=
    core_lt _ _ (Nat.mod_lt _ (by norm_num)) (emod15_toNat_lt _)
  have hUb : 2 ^ 15 * (old / 2 ^ 32 / 2 ^ 15) + (pyround (p2 / u) % 0x8000).toNat
      < 2 ^ 32 :=
    core_lt _ _ hdiv (emod15_toNat_lt _)
  have hE : encode_pls p1 p2 old u
      = 2 ^ 32 * (2 ^ 15 * (old / 2 ^ 32 / 2 ^ 15)
          + (pyround (p2 / u) % 0x8000).toNat)
        + (2 ^ 15 * (old % 2 ^ 32 / 2 ^ 15)
          + (pyround (p1 / u) % 0x8000).toNat) := by
    simp only [encode_pls]
    rw [patch_eq _ _ (emod15_toNat_lt _), patch_eq _ _ (emod15_toNat_lt _)]
    simp only [and_mask_32, Nat.shiftRight_eq_div_pow]
    rw [Nat.mod_eq_of_lt hdiv]
    exact combine_eq _ _ hLb
  refine ⟨?_, ?_, ?_, ?_⟩
  · simp only [encode_power_field]
    rw [patch_eq _ _ (emod15_toNat_lt _)]
    exact core_lt _ _ horig (emod15_toNat_lt _)
  · rw [hE]
    exact combine_mod _ _ hLb
  · rw [hE]
    exact combine_div _ _ hLb
  · rw [hE]
    have e32 : (2 : ℕ) ^ 32 = 4294967296 := by norm_num
    have e64 : (2 : ℕ) ^ 64 = 18446744073709551616 := by norm_num
    rw [e32] at hLb hUb ⊢
    rw [e64]
    omega

/-- Witness for C10 at scenario-2-style inputs. -/
theorem encode_result_fits_32_bits_witness :
    (0x00088000 : ℕ) < 2 ^ 32 ∧ (0 : ℚ) ≤ 20 ∧ (0 : ℚ) < 1/8 ∧
    (0x00DD80E800088000 : ℕ) < 2 ^ 64 ∧
    encode_power_field 0x00088000 20 (1/8) < 2 ^ 32 ∧
    encode_pls 20 28 0x00DD80E800088000 (1/8) % 2 ^ 32
      = 2 ^ 15 * ((0x00DD80E800088000 : ℕ) % 2 ^ 32 / 2 ^ 15)
        + (pyround ((20 : ℚ) / (1/8)) % 0x8000).toNat := by
  have h := encode_result_fits_32_bits 0x00088000 20 (1/8) 20 28
    0x00DD80E800088000 (by norm_num) (by norm_num) (by norm_num) (by norm_num)
  exact ⟨by norm_num, by norm_num, by norm_num, by norm_num, h.1, h.2.1⟩

/-- C3, counterexample: a wattage converting to `raw = 65536 > 0x7FFF`
does not fail — both encoders return a value whose limit field is the
raw value reduced mod `2^15` (here 0), i.e. they silently truncate, and
no `EncodingRangeError` exists anywhere in the code. -/
theorem encode_overflow_silently_truncated :
    pytrunc ((8192 : ℚ) / (1/8)) = 65536 ∧ ((65536 : ℤ) > 0x7FFF) ∧
    encode_power_field 0 8192 (1/8) = 0 ∧
    pyround ((8192 : ℚ) / (1/8)) = 65536 ∧
    encode_pls 8192 8192 0 (1/8) = 0 := by
  have h1 : pytrunc ((8192 : ℚ) / (1/8)) = 65536 := by norm_num [pytrunc]
  have h2 : pyround ((8192 : ℚ) / (1/8)) = 65536 := by norm_num [pyround]
  refine ⟨h1, by norm_num, ?_, h2, ?_⟩
  · simp only [encode_power_field, h1]
    decide
  · simp only [encode_pls, h2]
    decide

/-- C3, amended: a `desired_watts` mapping to `raw = 0x7FFF` is encoded
exactly; a `raw > 0x7FFF` is not rejected — there is no
`EncodingRangeError` (the encoders are total) and the limit field of
the result is the raw value reduced mod `2^15` (Python's `& 0x7FFF`),
i.e. silent truncation. -/
theorem encode_limit_field_boundary_and_truncation
    (original_half : ℕ) (w u p1 p2 : ℚ) (old : ℕ)
    (h0 : 0 ≤ pytrunc (w / u)) (g0 : 0 ≤ pyround (p1 / u)) :
    (encode_power_field original_half w u) &&& 0x7FFF
        = (pytrunc (w / u)).toNat % 2 ^ 15
    ∧ (pytrunc (w / u) = 0x7FFF →
        (encode_power_field original_half w u) &&& 0x7FFF = 0x7FFF)
    ∧ (encode_pls p1 p2 old u % 2 ^ 32) &&& 0x7FFF
        = (pyround (p1 / u)).toNat % 2 ^ 15
    ∧ (pyround (p1 / u) = 0x7FFF →
        (encode_pls p1 p2 old u % 2 ^ 32) &&& 0x7FFF = 0x7FFF) := by
  have hA := encode_power_field_low original_half w u h0
  have hG := encode_pls_low p1 p2 old u g0
  refine ⟨hA, ?_, hG, ?_⟩
  · intro hb
    rw [hA, hb]
    decide
  · intro hb
    rw [hG, hb]
    decide

/-- Witness for the C3 amended theorem at the 15-bit boundary
`raw = 0x7FFF`. -/
theorem encode_limit_field_boundary_witness :
    0 ≤ pytrunc ((32767 : ℚ) / 1) ∧ pytrunc ((32767 : ℚ) / 1) = 0x7FFF ∧
    0 ≤ pyround ((32767 : ℚ) / 1) ∧
    (encode_power_field 0x00088000 32767 1) &&& 0x7FFF = 0x7FFF := by
  have h1 : pytrunc ((32767 : ℚ) / 1) = 32767 := by norm_num [pytrunc]
  have h2 : pyround ((32767 : ℚ) / 1) = 32767 := by norm_num [pyround]
  exact ⟨by rw [h1]; norm_num, h1, by rw [h2]; norm_num,
    (encode_limit_field_boundary_and_truncation 0x00088000 32767 1 32767 32767 0
      (by rw [h1]; norm_num) (by rw [h2]; norm_num)).2.1 h1⟩

/-- C5, counterexample: for `desired_watts = 1.9` and `power_unit = 1`,
`encode_power_field` stores raw value 1 (truncation toward zero by
Python's `int()`), although the nearest raw value is 2 — so its raw
conversion is not round-to-nearest. -/
theorem encode_power_field_truncates_not_rounds :
    encode_power_field 0 (19/10) 1 = 1 ∧
    pyround ((19/10 : ℚ) / 1) = 2 ∧
    |(19/10 : ℚ) - 2| < |(19/10 : ℚ) - 1| := by
  have h1 : pytrunc ((19/10 : ℚ) / 1) = 1 := by norm_num [pytrunc]
  refine ⟨?_, by norm_num [pyround], ?_⟩
  · simp only [encode_power_field, h1]
    decide
  · rw [abs_of_nonpos (by norm_num : (19/10 : ℚ) - 2 ≤ 0),
      abs_of_nonneg (by norm_num : (0 : ℚ) ≤ 19/10 - 1)]
    norm_num

/-- C5, amended: the GUI's `encode_pls` stores
`raw = round(desired_watts / power_unit)` rounded to nearest (within
half a raw step), while `encode_power_field` of apply_pl.py stores
`int(desired_watts / power_unit)`, truncation toward zero (equal to the
floor on nonnegative quotients). -/
theorem raw_conversion_rounding_modes
    (original_half : ℕ) (w u p1 p2 : ℚ) (old : ℕ)
    (hq : 0 ≤ w / u) (h1 : pytrunc (w / u) < 2 ^ 15)
    (g0 : 0 ≤ pyround (p1 / u)) (g1 : pyround (p1 / u) < 2 ^ 15) :
    (encode_power_field original_half w u) &&& 0x7FFF
        = (pytrunc (w / u)).toNat
    ∧ pytrunc (w / u) = ⌊w / u⌋
    ∧ (encode_pls p1 p2 old u % 2 ^ 32) &&& 0x7FFF
        = (pyround (p1 / u)).toNat
    ∧ |p1 / u - pyround (p1 / u)| ≤ 1/2 := by
  have h0 : 0 ≤ pytrunc (w / u) := pytrunc_nonneg hq
  refine ⟨?_, pytrunc_of_nonneg hq, ?_, pyround_abs _⟩
  · rw [encode_power_field_low original_half w u h0]
    exact Nat.mod_eq_of_lt (toNat_lt15 h1)
  · rw [encode_pls_low p1 p2 old u g0]
    exact Nat.mod_eq_of_lt (toNat_lt15 g1)

/-- Witness for the C5 amended theorem at scenario-2 inputs. -/
theorem raw_conversion_rounding_modes_witness :
    0 ≤ (20 : ℚ) / (1/8) ∧ pytrunc ((20 : ℚ) / (1/8)) < 2 ^ 15 ∧
    0 ≤ pyround ((20 : ℚ) / (1/8)) ∧ pyround ((20 : ℚ) / (1/8)) < 2 ^ 15 ∧
    (encode_power_field 0x00088000 20 (1/8)) &&& 0x7FFF
      = (pytrunc ((20 : ℚ) / (1/8))).toNat := by
  have h1 : pytrunc ((20 : ℚ) / (1/8)) = 160 := by norm_num [pytrunc]
  have h2 : pyround ((20 : ℚ) / (1/8)) = 160 := by norm_num [pyround]
  exact ⟨by norm_num, by rw [h1]; norm_num, by rw [h2]; norm_num,
    by rw [h2]; norm_num,
    (raw_conversion_rounding_modes 0x00088000 20 (1/8) 20 28 0x88000
      (by norm_num) (by rw [h1]; norm_num) (by rw [h2]; norm_num)
      (by rw [h2]; norm_num)).1⟩

/-- C6: if the unit-scale read or the power-limit read fails, both
apply implementations abort: the gateway trace contains zero writes and
no new register value is produced, so the power-limit register is
untouched. -/
theorem read_failure_aborts_without_write
    (readf : ℕ → Option ℕ) (pl1 pl2 : ℚ)
    (h : readf 0x606 = none ∨ readf 0x610 = none) :
    writesOf (apply_chill_profile readf).1 = []
    ∧ (apply_chill_profile readf).2 = none
    ∧ writesOf (apply_profile readf pl1 pl2).1 = []
    ∧ (apply_profile readf pl1 pl2).2 = none := by
  rcases h with h | h
  · simp [apply_chill_profile, apply_profile, decode_pls, encode_pls_traced,
      MSR_RAPL_POWER_UNIT, MSR_PKG_POWER_LIMIT, h, writesOf]
  · rcases hc : readf 0x606 with _ | u
    · simp [apply_chill_profile, apply_profile, decode_pls, encode_pls_traced,
        MSR_RAPL_POWER_UNIT, MSR_PKG_POWER_LIMIT, hc, writesOf]
    · simp [apply_chill_profile, apply_profile, decode_pls, encode_pls_traced,
        MSR_RAPL_POWER_UNIT, MSR_PKG_POWER_LIMIT, hc, h, writesOf]

/-- Witness for C6: the all-failing gateway produces no writes. -/
theorem read_failure_aborts_without_write_witness :
    ((fun _ : ℕ => (none : Option ℕ)) 0x606 = none
      ∨ (fun _ : ℕ => (none : Option ℕ)) 0x610 = none)
    ∧ writesOf (apply_chill_profile (fun _ => none)).1 = []
    ∧ (apply_chill_profile (fun _ => none)).2 = none
    ∧ writesOf (apply_profile (fun _ => none) 20 28).1 = []
    ∧ (apply_profile (fun _ => none) 20 28).2 = none := by
  have h := read_failure_aborts_without_write (fun _ => none) 20 28 (Or.inl rfl)
  exact ⟨Or.inl rfl, h.1, h.2.1, h.2.2.1, h.2.2.2⟩

/-- C7, counterexample: a concrete successful run of the GUI's
`apply_profile` reads the unit-scaling register 0x606 three times (in
`decode_pls`, in `encode_pls`, and in the post-write
`update_current_label` refresh, which also re-reads 0x610), so its
gateway sequence is not "read 0x606 once, read 0x610, write 0x610". -/
theorem gui_apply_rereads_unit_msr :
    (apply_profile (fun m => if m = 0x606 then some 3 else some 0) 20 28).1
      = [.read 0x606, .read 0x610, .read 0x606, .write 0x610 962072674464,
          .read 0x606, .read 0x610]
    ∧ readCount ((apply_profile (fun m => if m = 0x606 then some 3 else some 0)
        20 28).1) 0x606 = 3
    ∧ readCount ((apply_profile (fun m => if m = 0x606 then some 3 else some 0)
        20 28).1) 0x610 = 2 := by
  have hdu : decode_power_time_units 3 = (8⁻¹, 1) := by
    rw [decode_power_time_units_arith]
    norm_num
  have h1 : pyround ((20 : ℚ) / 8⁻¹) = 160 := by norm_num [pyround]
  have h2 : pyround ((28 : ℚ) / 8⁻¹) = 224 := by norm_num [pyround]
  have he : encode_pls 20 28 0 (8⁻¹ : ℚ) = 962072674464 := by
    simp only [encode_pls, h1, h2]
    decide
  refine ⟨?_, ?_, ?_⟩ <;>
    simp [apply_profile, decode_pls, encode_pls_traced, update_current_label,
      hdu, he, readCount]

/-- C7, amended: on a successful apply, `apply_chill_profile` issues
exactly read 0x606, read 0x610, write 0x610 — the unit-scaling register
read exactly once; the GUI's `apply_profile` instead reads 0x606 three
times and 0x610 twice, issuing read 0x606, read 0x610 (`decode_pls`),
read 0x606 (`encode_pls`), write 0x610, read 0x606, read 0x610 (the
`update_current_label` refresh after the write). -/
theorem apply_gateway_sequences
    (readf : ℕ → Option ℕ) (units pkg : ℕ) (pl1 pl2 : ℚ)
    (hu : readf 0x606 = some units) (hp : readf 0x610 = some pkg) :
    (apply_chill_profile readf).1
      = [.read 0x606, .read 0x610,
          .write 0x610 (((apply_chill_profile readf).2).getD 0)]
    ∧ readCount (apply_chill_profile readf).1 0x606 = 1
    ∧ readCount (apply_chill_profile readf).1 0x610 = 1
    ∧ (apply_profile readf pl1 pl2).1
      = [.read 0x606, .read 0x610, .read 0x606,
          .write 0x610 (((apply_profile readf pl1 pl2).2).getD 0),
          .read 0x606, .read 0x610]
    ∧ readCount (apply_profile readf pl1 pl2).1 0x606 = 3
    ∧ readCount (apply_profile readf pl1 pl2).1 0x610 = 2 := by
  simp [apply_chill_profile, apply_profile, decode_pls, encode_pls_traced,
    update_current_label, MSR_RAPL_POWER_UNIT, MSR_PKG_POWER_LIMIT, hu, hp,
    readCount]

/-- Witness for the C7 amended theorem at a concrete gateway. -/
theorem apply_gateway_sequences_witness :
    ((fun m : ℕ => if m = 0x606 then some 3 else some 0) 0x606 = some 3)
    ∧ ((fun m : ℕ => if m = 0x606 then some 3 else some 0) 0x610 = some 0)
    ∧ readCount
        (apply_chill_profile (fun m => if m = 0x606 then some 3 else some 0)).1
        0x606 = 1
    ∧ readCount
        ((apply_profile (fun m => if m = 0x606 then some 3 else some 0)
          20 28).1) 0x606 = 3
    ∧ readCount
        ((apply_profile (fun m => if m = 0x606 then some 3 else some 0)
          20 28).1) 0x610 = 2 := by
  have h := apply_gateway_sequences
    (fun m => if m = 0x606 then some 3 else some 0) 3 0 20 28
    (by norm_num) (by norm_num)
  exact ⟨by norm_num, by norm_num, h.2.1, h.2.2.2.2.1, h.2.2.2.2.2⟩

/-- C1, counterexample: with unit register 0xF (`power_unit = 2^-15`)
and power-limit register 0, applying the Chill preset (20 W) writes 0:
the requested 20 W converts to raw 655360 > 0x7FFF, the masked limit
field is 0, and the decoded PL1 after apply is 0 W — not within one raw
step (`power_unit` watts) of 20 W.  So the accuracy half of the claim
fails for some register states. -/
theorem apply_chill_overflow_misses_requested_watts :
    (apply_chill_profile (fun m => if m = 0x606 then some 0xF else some 0)).2
      = some 0
    ∧ (decode_pls_fields 0 (decode_units 0xF).1 (decode_units 0xF).2).1 = 0
    ∧ ¬ |(20 : ℚ) -
          (decode_pls_fields 0 (decode_units 0xF).1 (decode_units 0xF).2).1|
        ≤ (decode_units 0xF).1 := by
  have hdu : decode_units 0xF = ((32768 : ℚ)⁻¹, 1) := by
    rw [decode_units_arith]
    norm_num
  have h1 : pytrunc ((20 : ℚ) / (32768 : ℚ)⁻¹) = 655360 := by
    norm_num [pytrunc]
  have h2 : pytrunc ((28 : ℚ) / (32768 : ℚ)⁻¹) = 917504 := by
    norm_num [pytrunc]
  have he1 : encode_power_field 0 20 ((32768 : ℚ)⁻¹) = 0 := by
    simp only [encode_power_field, h1]
    decide
  have he2 : encode_power_field 0 28 ((32768 : ℚ)⁻¹) = 0 := by
    simp only [encode_power_field, h2]
    decide
  have hz : (decode_pls_fields 0 (decode_units 0xF).1 (decode_units 0xF).2).1
      = 0 := by
    rw [hdu, decode_pls_fields_arith]
    norm_num
  refine ⟨?_, hz, ?_⟩
  · simp [apply_chill_profile, MSR_RAPL_POWER_UNIT, MSR_PKG_POWER_LIMIT,
      hdu, he1, he2]
  · rw [hz, hdu, sub_zero, abs_of_nonneg (by norm_num : (0 : ℚ) ≤ 20)]
    norm_num

/-- C1, amended: provided each preset wattage converts to a raw value
that fits in the 15-bit field, applying a preset changes only the
15-bit `limit_raw` field of each half: every other bit of the written
64-bit value (enable, clamp, time window, lock, reserved) equals its
pre-write value, the decoded tau is unchanged, and the decoded PL1/PL2
watts are within one raw step (`power_unit` watts) of the preset's
wattages — for `apply_chill_profile` (preset 20 W / 28 W) and for the
GUI's `apply_profile` on every preset of the catalog. -/
theorem apply_preset_frame_and_accuracy
    (readf : ℕ → Option ℕ) (units pkg : ℕ) (name : String) (pl1 pl2 : ℚ)
    (hu : readf 0x606 = some units) (hp : readf 0x610 = some pkg)
    (hpkg : pkg < 2 ^ 64)
    (hmem : (name, pl1, pl2) ∈ PROFILES)
    (hfitA1 : pytrunc (20 / (decode_units units).1) < 2 ^ 15)
    (hfitA2 : pytrunc (28 / (decode_units units).1) < 2 ^ 15)
    (hfitG1 : pyround (pl1 / (decode_power_time_units units).1) < 2 ^ 15)
    (hfitG2 : pyround (pl2 / (decode_power_time_units units).1) < 2 ^ 15) :
    ((apply_chill_profile readf).2 ≠ none)
    ∧ (∀ i, ¬ (i < 15 ∨ (32 ≤ i ∧ i < 47)) →
        (((apply_chill_profile readf).2).getD 0).testBit i = pkg.testBit i)
    ∧ (decode_pls_fields (((apply_chill_profile readf).2).getD 0)
          (decode_units units).1 (decode_units units).2).2.2
        = (decode_pls_fields pkg (decode_units units).1
            (decode_units units).2).2.2
    ∧ |(20 : ℚ) - (decode_pls_fields (((apply_chill_profile readf).2).getD 0)
          (decode_units units).1 (decode_units units).2).1|
        ≤ (decode_units units).1
    ∧ |(28 : ℚ) - (decode_pls_fields (((apply_chill_profile readf).2).getD 0)
          (decode_units units).1 (decode_units units).2).2.1|
        ≤ (decode_units units).1
    ∧ ((apply_profile readf pl1 pl2).2 ≠ none)
    ∧ (∀ i, ¬ (i < 15 ∨ (32 ≤ i ∧ i < 47)) →
        (((apply_profile readf pl1 pl2).2).getD 0).testBit i = pkg.testBit i)
    ∧ (decode_pls_fields (((apply_profile readf pl1 pl2).2).getD 0)
          (decode_power_time_units units).1
          (decode_power_time_units units).2).2.2
        = (decode_pls_fields pkg (decode_power_time_units units).1
            (decode_power_time_units units).2).2.2
    ∧ |pl1 - (decode_pls_fields (((apply_profile readf pl1 pl2).2).getD 0)
          (decode_power_time_units units).1
          (decode_power_time_units units).2).1|
        ≤ (decode_power_time_units units).1
    ∧ |pl2 - (decode_pls_fields (((apply_profile readf pl1 pl2).2).getD 0)
          (decode_power_time_units units).1
          (decode_power_time_units units).2).2.1|
        ≤ (decode_power_time_units units).1 := by
  have hpl : 0 ≤ pl1 ∧ 0 ≤ pl2 := by
    simp only [PROFILES, List.mem_cons, List.not_mem_nil, or_false,
      Prod.mk.injEq] at hmem
    rcases hmem with h | h | h | h | h <;>
      obtain ⟨-, h1, h2⟩ := h <;> subst h1 <;> subst h2 <;>
      exact ⟨by norm_num, by norm_num⟩
  have hupos : 0 < (decode_units units).1 := by
    rw [decode_units_arith]
    exact unit_pos _
  have hupos2 : 0 < (decode_power_time_units units).1 := by
    rw [decode_power_time_units_arith]
    exact unit_pos _
  have hA10 : 0 ≤ pytrunc (20 / (decode_units units).1) :=
    pytrunc_nonneg (div_nonneg (by norm_num) hupos.le)
  have hA20 : 0 ≤ pytrunc (28 / (decode_units units).1) :=
    pytrunc_nonneg (div_nonneg (by norm_num) hupos.le)
  have hG10 : 0 ≤ pyround (pl1 / (decode_power_time_units units).1) :=
    pyround_nonneg (div_nonneg hpl.1 hupos2.le)
  have hG20 : 0 ≤ pyround (pl2 / (decode_power_time_units units).1) :=
    pyround_nonneg (div_nonneg hpl.2 hupos2.le)
  have hdiv : pkg / 2 ^ 32 < 2 ^ 32 := Nat.div_lt_of_lt_mul (by
    calc pkg < 2 ^ 64 := hpkg
    _ = 2 ^ 32 * 2 ^ 32 := by norm_num)
  have hA : (apply_chill_profile readf).2
      = some ((encode_power_field ((pkg >>> 32) &&& 0xFFFFFFFF) 28
            (decode_units units).1 <<< 32)
          ||| encode_power_field (pkg &&& 0xFFFFFFFF) 20
            (decode_units units).1) := by
    simp only [apply_chill_profile, MSR_RAPL_POWER_UNIT, MSR_PKG_POWER_LIMIT,
      hu, hp]
  have hG : (apply_profile readf pl1 pl2).2
      = some (encode_pls pl1 pl2 pkg (decode_power_time_units units).1) := by
    simp only [apply_profile, decode_pls, encode_pls_traced, hu, hp]
  have hAval : ((apply_chill_profile readf).2).getD 0
      = 2 ^ 32 * (2 ^ 15 * (pkg / 2 ^ 32 / 2 ^ 15)
          + (pytrunc (28 / (decode_units units).1)).toNat)
        + (2 ^ 15 * (pkg % 2 ^ 32 / 2 ^ 15)
          + (pytrunc (20 / (decode_units units).1)).toNat) := by
    rw [hA, Option.getD_some,
      encode_power_field_eq _ _ _ hA10 hfitA1,
      encode_power_field_eq _ _ _ hA20 hfitA2]
    simp only [and_mask_32, Nat.shiftRight_eq_div_pow]
    rw [Nat.mod_eq_of_lt hdiv]
    exact combine_eq _ _
      (core_lt _ _ (Nat.mod_lt _ (by norm_num)) (toNat_lt15 hfitA1))
  have hGval : ((apply_profile readf pl1 pl2).2).getD 0
      = 2 ^ 32 * (2 ^ 15 * (pkg / 2 ^ 32 / 2 ^ 15)
          + (pyround (pl2 / (decode_power_time_units units).1)).toNat)
        + (2 ^ 15 * (pkg % 2 ^ 32 / 2 ^ 15)
          + (pyround (pl1 / (decode_power_time_units units).1)).toNat) := by
    rw [hG, Option.getD_some,
      encode_pls_eq _ _ _ _ hG10 hfitG1 hG20 hfitG2, Nat.mod_eq_of_lt hdiv]
  have propsA := patched_register_props pkg _
    (pytrunc (20 / (decode_units units).1))
    (pytrunc (28 / (decode_units units).1))
    (decode_units units).1 (decode_units units).2 20 28 hAval.symm.symm
    hpkg hA10 hfitA1 hA20 hfitA2 hupos
    (pytrunc_abs (div_nonneg (by norm_num) hupos.le))
    (pytrunc_abs (div_nonneg (by norm_num) hupos.le))
  have propsG := patched_register_props pkg _
    (pyround (pl1 / (decode_power_time_units units).1))
    (pyround (pl2 / (decode_power_time_units units).1))
    (decode_power_time_units units).1 (decode_power_time_units units).2
    pl1 pl2 hGval.symm.symm
    hpkg hG10 hfitG1 hG20 hfitG2 hupos2
    (le_trans (pyround_abs _) (by norm_num))
    (le_trans (pyround_abs _) (by norm_num))
  refine ⟨by rw [hA]; exact Option.some_ne_none _, propsA.1, propsA.2.1,
    propsA.2.2.1, propsA.2.2.2,
    by rw [hG]; exact Option.some_ne_none _, propsG.1, propsG.2.1,
    propsG.2.2.1, propsG.2.2.2⟩

/-- Witness for the C1 amended theorem: unit register 3
(`power_unit = 1/8`), power-limit register with lock bit 63 and tau
bits set, preset Chill. -/
theorem apply_preset_frame_and_accuracy_witness :
    ((0x80DD80E800088000 : ℕ) < 2 ^ 64)
    ∧ (("Chill", (20 : ℚ), (28 : ℚ)) ∈ PROFILES)
    ∧ ((apply_chill_profile (fun m =>
        if m = 0x606 then some 3 else some 0x80DD80E800088000)).2 ≠ none)
    ∧ (((apply_chill_profile (fun m =>
          if m = 0x606 then some 3 else some 0x80DD80E800088000)).2).getD 0
        ).testBit 63
      = (0x80DD80E800088000 : ℕ).testBit 63
    ∧ |(20 : ℚ) - (decode_pls_fields
          (((apply_chill_profile (fun m =>
            if m = 0x606 then some 3 else some 0x80DD80E800088000)).2).getD 0)
          (decode_units 3).1 (decode_units 3).2).1|
        ≤ (decode_units 3).1
    ∧ |(20 : ℚ) - (decode_pls_fields
          (((apply_profile (fun m =>
              if m = 0x606 then some 3 else some 0x80DD80E800088000) 20 28
            ).2).getD 0)
          (decode_power_time_units 3).1 (decode_power_time_units 3).2).1|
        ≤ (decode_power_time_units 3).1 := by
  have hfA1 : pytrunc (20 / (decode_units 3).1) < 2 ^ 15 := by
    rw [decode_units_arith]
    norm_num [pytrunc]
  have hfA2 : pytrunc (28 / (decode_units 3).1) < 2 ^ 15 := by
    rw [decode_units_arith]
    norm_num [pytrunc]
  have hfG1 : pyround ((20 : ℚ) / (decode_power_time_units 3).1) < 2 ^ 15 := by
    rw [decode_power_time_units_arith]
    norm_num [pyround]
  have hfG2 : pyround ((28 : ℚ) / (decode_power_time_units 3).1) < 2 ^ 15 := by
    rw [decode_power_time_units_arith]
    norm_num [pyround]
  have h := apply_preset_frame_and_accuracy
    (fun m => if m = 0x606 then some 3 else some 0x80DD80E800088000)
    3 0x80DD80E800088000 "Chill" 20 28 (by norm_num) (by norm_num)
    (by norm_num) (by decide) hfA1 hfA2 hfG1 hfG2
  exact ⟨by norm_num, by decide, h.1, h.2.1 63 (by omega), h.2.2.2.1,
    h.2.2.2.2.2.2.2.2.1⟩

end PLC
